import Mathlib

/-!
A verification development for `src/sync_highlights.py` of mnadel/goodwise: a
shallow embedding of the incremental highlight-sync script, together with
theorems about its watermark store, change reader, payload transformer and
orchestrator.

Modelling conventions:
* Python floats (SQLite REAL timestamps, the watermark) are modelled as exact
  decimal rationals `man / 10 ^ exp` (`Dec`).  Every IEEE double is a dyadic
  rational and hence has such a representation, and all operations the script
  performs on timestamps (comparisons, ordering, decimal text round trips) are
  exact on this model.
* The watermark file is `Option String` (`none` = file missing).  `str(float)`
  is modelled as the positional decimal rendering of the value (Python always
  emits at least one fractional digit, mirrored by `Dec.norm`), and the
  builtin `float(...)` parser is modelled for plain decimal literals
  (optional sign, digits, optional fractional part); exotic accepted forms
  (exponents, `inf`/`nan`, underscores, non-ASCII digits) never arise from
  this program's own writes and are out of the model, which only makes the
  model's parser reject more strings.
* `str.strip()` is `pyStrip` on the character list, with core whitespace.
* The SQLite store is a list of already-joined query rows (`Record`), and
  `ORDER BY h.time ASC` is modelled by a comparison sort on the timestamp.
* The dictionary payload with optional keys is a structure of `Option` fields
  where `none` means the key is absent from the JSON object.
* `main` is `mainRun`, a pure function of the dry-run flag, the environment
  credential, the watermark-file content, the store content and the outcome
  the network would give to the single delivery call; it returns the final
  file content, effect counters and the run outcome.
-/

namespace Goodwise

/-- Exact decimal number `man / 10 ^ exp`: the model of a Python float
timestamp value. -/
structure Dec where
  man : ℤ
  exp : ℕ
deriving DecidableEq

/-- Numeric value of a `Dec`. -/
def Dec.toRat (d : Dec) : ℚ := (d.man : ℚ) / (10 : ℚ) ^ d.exp

/-- Order on `Dec` by cross multiplication (the exact comparison of the two
float values, as SQLite and Python compare them). -/
def Dec.Le (a b : Dec) : Prop := a.man * 10 ^ b.exp ≤ b.man * 10 ^ a.exp

/-- Strict order on `Dec` by cross multiplication. -/
def Dec.Lt (a b : Dec) : Prop := a.man * 10 ^ b.exp < b.man * 10 ^ a.exp

instance : DecidableRel Dec.Le := fun _ _ => inferInstanceAs (Decidable (_ ≤ _))

instance : DecidableRel Dec.Lt := fun _ _ => inferInstanceAs (Decidable (_ < _))

/-- Push an integral `Dec` to one fractional digit, value unchanged: Python's
`str(float)` always renders at least one digit after the point (`2.0`). -/
def Dec.norm (d : Dec) : Dec := if d.exp = 0 then ⟨d.man * 10, 1⟩ else d

/-- Negate a `Dec`. -/
def Dec.neg (d : Dec) : Dec := ⟨-d.man, d.exp⟩

/-- The ASCII character of a decimal digit. -/
def charOfDigit (d : ℕ) : Char := Char.ofNat (48 + d)

/-- The decimal digit of an ASCII character. -/
def digitOfChar (c : Char) : ℕ := c.toNat - 48

/-- Value of a big-endian digit list. -/
def ofDigitsBE (l : List ℕ) : ℕ := l.foldl (fun a d => 10 * a + d) 0

/-- Big-endian decimal digits of a natural number. -/
def natDigitsBE (n : ℕ) : List ℕ := (Nat.digits 10 n).reverse

/-- Left-pad a digit list with zeros to length at least `e + 1`. -/
def padDigits (e : ℕ) (l : List ℕ) : List ℕ := List.replicate (e + 1 - l.length) 0 ++ l

/-- Positional decimal rendering of `n / 10 ^ e` for `n : ℕ`: the digit string
of `n`, left-padded so a digit exists before the point, split by `'.'` so that
exactly `e` digits follow the point. -/
def renderUnsigned (n e : ℕ) : List Char :=
  let ds := padDigits e (natDigitsBE n)
  (ds.take (ds.length - e)).map charOfDigit ++ '.' :: (ds.drop (ds.length - e)).map charOfDigit

/-- Model of Python `str(t)` for a float `t`: sign, then the positional
rendering of the absolute value with at least one fractional digit. -/
def renderDec (t : Dec) : String :=
  ⟨(if t.norm.man < 0 then ['-'] else []) ++ renderUnsigned t.norm.man.natAbs t.norm.exp⟩

/-- Model of Python `float(...)` on an unsigned plain decimal literal:
`digits`, `digits.digits`, `digits.` or `.digits`, nothing trailing. -/
def parseUnsigned (cs : List Char) : Option Dec :=
  let ip := cs.takeWhile Char.isDigit
  let rest := cs.dropWhile Char.isDigit
  if rest = [] then
    if ip = [] then none else some ⟨(ofDigitsBE (ip.map digitOfChar) : ℤ), 0⟩
  else if rest.head? = some '.' then
    let fp := rest.tail.takeWhile Char.isDigit
    let rest2 := rest.tail.dropWhile Char.isDigit
    if rest2 = [] then
      if ip = [] ∧ fp = [] then none
      else some ⟨(ofDigitsBE ((ip ++ fp).map digitOfChar) : ℤ), fp.length⟩
    else none
  else none

/-- Model of Python `float(...)` on a plain decimal literal with optional
sign. -/
def parseSigned (cs : List Char) : Option Dec :=
  match cs with
  | [] => none
  | c :: rest =>
    if c = '-' then (parseUnsigned rest).map Dec.neg
    else if c = '+' then parseUnsigned rest
    else parseUnsigned cs

/-- Model of Python `str.strip()`: drop whitespace from both ends. -/
def pyStrip (cs : List Char) : List Char :=
  ((cs.dropWhile Char.isWhitespace).reverse.dropWhile Char.isWhitespace).reverse

/-- `get_last_sync_time` of the source, over the watermark-file content:
missing file, blank content and unparseable content all give `none`. -/
def get_last_sync_time (file : Option String) : Option Dec :=
  match file with
  | none => none
  | some raw =>
    let content := pyStrip raw.data
    if content = [] then none else parseSigned content

/-- `update_last_sync_time` of the source: the new watermark-file content is
`str(last_highlight_time)`. -/
def update_last_sync_time (t : Dec) : String := renderDec t

/-- One joined row of the source query: highlight fields plus the parent
link's `url`, `title`, `author` (SQL `NULL` is `none`). -/
structure Record where
  id : ℤ
  linkId : ℤ
  content : String
  note : Option String
  time : Dec
  color : Option ℤ
  url : Option String
  title : Option String
  author : Option String
deriving DecidableEq

/-- Python string truthiness on an optional string: `None` and `""` are
falsy.  `x if x else None` and `if x:` in the source both factor through
this. -/
def pyTruthyStr (o : Option String) : Option String :=
  match o with
  | none => none
  | some s => if s = "" then none else some s

/-- Ascending timestamp order on records, the `ORDER BY h.time ASC` key. -/
def timeLe (a b : Record) : Prop := Dec.Le a.time b.time

instance : DecidableRel timeLe := fun _ _ => inferInstanceAs (Decidable (Dec.Le _ _))

/-- `fetch_new_highlights` of the source: all rows, or the rows with
`time > watermark`, ordered ascending by `time`. -/
def fetch_new_highlights (db : List Record) (last_sync_time : Option Dec) : List Record :=
  match last_sync_time with
  | some w => List.insertionSort timeLe (db.filter (fun h => decide (Dec.Lt w h.time)))
  | none => List.insertionSort timeLe db

/-- `convert_timestamp_to_iso` of the source renders the timestamp as local
time ISO-8601 text, which is environment-dependent (spec §9 flags this); no
claim constrains the text, so the model renders the raw decimal value.  Only
totality and the field's presence matter downstream. -/
def convert_timestamp_to_iso (t : Dec) : String := renderDec t

/-- One outbound payload item; `none` in an optional field means the key is
absent from the JSON object (the source builds the dictionary with `None`
placeholders and then strips every `None` value). -/
structure Payload where
  text : String
  source_url : Option String
  title : Option String
  author : Option String
  highlighted_at : String
  note : Option String
deriving DecidableEq

/-- `build_readwise_payload` of the source: `url`/`title`/`author` pass
through Python truthiness into `None` placeholders, `note` is added only when
truthy, then `None` values are removed — net effect per field is
`pyTruthyStr`. -/
def build_readwise_payload (h : Record) : Payload :=
  { text := h.content
    source_url := pyTruthyStr h.url
    title := pyTruthyStr h.title
    author := pyTruthyStr h.author
    highlighted_at := convert_timestamp_to_iso h.time
    note := pyTruthyStr h.note }

/-- Terminal outcome of one run of `main`. -/
inductive RunOutcome where
  | configError
  | nothingToDo
  | dryRunReport (batch : List Payload) (wouldBeWatermark : Dec)
  | committed (batch : List Payload) (newWatermark : Dec)
  | deliveryFailed (err : String)
deriving DecidableEq

/-- Observable result of one run: final watermark-file content, effect
counters, and the terminal outcome. -/
structure RunResult where
  finalFile : Option String
  fileWrites : ℕ
  networkCalls : ℕ
  dbQueries : ℕ
  fileReads : ℕ
  outcome : RunOutcome
deriving DecidableEq

/-- `main` of the source as a pure function.  `delivery` is the outcome the
single `requests.post` would have (`Except.error` = network failure or
non-2xx raised by `raise_for_status`).  Branch order mirrors the source:
credential check (truthiness of the environment variable, dry run exempt),
watermark load, fetch, empty-set early return, dry-run report, else one
delivery call and — only on its success — one watermark write. -/
def mainRun (dryRun : Bool) (env : Option String) (file : Option String)
    (db : List Record) (delivery : Except String Unit) : RunResult :=
  if dryRun = false ∧ pyTruthyStr env = none then
    ⟨file, 0, 0, 0, 0, .configError⟩
  else if h : fetch_new_highlights db (get_last_sync_time file) = [] then
    ⟨file, 0, 0, 1, 1, .nothingToDo⟩
  else if dryRun then
    ⟨file, 0, 0, 1, 1,
      .dryRunReport ((fetch_new_highlights db (get_last_sync_time file)).map build_readwise_payload)
        ((fetch_new_highlights db (get_last_sync_time file)).getLast h).time⟩
  else
    match delivery with
    | .ok _ =>
      ⟨some (update_last_sync_time ((fetch_new_highlights db (get_last_sync_time file)).getLast h).time),
        1, 1, 1, 1,
        .committed ((fetch_new_highlights db (get_last_sync_time file)).map build_readwise_payload)
          ((fetch_new_highlights db (get_last_sync_time file)).getLast h).time⟩
    | .error e => ⟨file, 0, 1, 1, 1, .deliveryFailed e⟩

/-- Recognizer for the dry-run-report outcome. -/
def RunOutcome.isDryRunReport : RunOutcome → Bool
  | .dryRunReport _ _ => true
  | _ => false

/-- Sample row with all optional fields absent, committed at 100 seconds. -/
def sampleRec : Record :=
  ⟨1, 1, "highlight text", none, ⟨100, 0⟩, none, none, none, none⟩

/-- Sample row whose joined `title` is present but the empty string. -/
def sampleRecEmptyTitle : Record :=
  ⟨2, 1, "highlight text", none, ⟨100, 0⟩, none, none, some "", none⟩

/-- Sample row with a present url and note, absent title, empty-string
author. -/
def sampleRecMixed : Record :=
  ⟨3, 1, "highlight text", some "a note", ⟨100, 0⟩, none, some "https://x", none, some ""⟩

end Goodwise

namespace Goodwise

/-- Facts about the character of a decimal digit. -/
theorem charOfDigit_facts {d : ℕ} (hd : d < 10) :
    digitOfChar (charOfDigit d) = d ∧ (charOfDigit d).isDigit = true ∧
      (charOfDigit d).isWhitespace = false ∧ charOfDigit d ≠ '-' ∧
      charOfDigit d ≠ '+' ∧ charOfDigit d ≠ '.' := by
  interval_cases d <;> exact (by decide)

/-- Splitting at a first failing element locates `takeWhile` and
`dropWhile`. -/
theorem takeWhile_append_of {α} (p : α → Bool) (l r : List α) (x : α)
    (hl : ∀ c ∈ l, p c = true) (hx : p x = false) :
    (l ++ x :: r).takeWhile p = l ∧ (l ++ x :: r).dropWhile p = x :: r := by
  induction l with
  | nil => simp [List.takeWhile_cons, List.dropWhile_cons, hx]
  | cons a l ih =>
    have ha : p a = true := hl a (List.mem_cons_self a l)
    have ih' := ih (fun c hc => hl c (List.mem_cons_of_mem a hc))
    simp [List.takeWhile_cons, List.dropWhile_cons, ha, ih'.1, ih'.2]

/-- On an all-true list `takeWhile` keeps everything. -/
theorem takeWhile_eq_self_of {α} (p : α → Bool) (l : List α)
    (hl : ∀ c ∈ l, p c = true) :
    l.takeWhile p = l ∧ l.dropWhile p = [] := by
  induction l with
  | nil => simp
  | cons a l ih =>
    have ha : p a = true := hl a (List.mem_cons_self a l)
    have ih' := ih (fun c hc => hl c (List.mem_cons_of_mem a hc))
    simp [List.takeWhile_cons, List.dropWhile_cons, ha, ih'.1, ih'.2]

/-- On an all-false list `dropWhile` keeps everything. -/
theorem dropWhile_eq_self_of {α} (p : α → Bool) (l : List α)
    (hl : ∀ c ∈ l, p c = false) : l.dropWhile p = l := by
  cases l with
  | nil => rfl
  | cons a l => simp [List.dropWhile_cons, hl a (List.mem_cons_self a l)]

/-- Stripping a whitespace-free list is the identity. -/
theorem pyStrip_eq_self_of (l : List Char)
    (hl : ∀ c ∈ l, c.isWhitespace = false) : pyStrip l = l := by
  unfold pyStrip
  rw [dropWhile_eq_self_of _ _ hl,
    dropWhile_eq_self_of _ _ (fun c hc => hl c (List.mem_reverse.1 hc)),
    List.reverse_reverse]

/-- Leading zeros do not change the value of a big-endian digit list. -/
theorem ofDigitsBE_replicate_zero (k : ℕ) (l : List ℕ) :
    ofDigitsBE (List.replicate k 0 ++ l) = ofDigitsBE l := by
  unfold ofDigitsBE
  rw [List.foldl_append]
  have : (List.replicate k 0).foldl (fun a d => 10 * a + d) 0 = 0 := by
    induction k with
    | zero => rfl
    | succ k ih => simpa [List.replicate_succ] using ih
  rw [this]

/-- Big-endian folding of a reversed little-endian digit list. -/
theorem foldl_reverse_ofDigits (l : List ℕ) (a : ℕ) :
    (l.reverse).foldl (fun a d => 10 * a + d) a = a * 10 ^ l.length + Nat.ofDigits 10 l := by
  induction l generalizing a with
  | nil => simp [Nat.ofDigits_nil]
  | cons d l ih =>
    rw [List.reverse_cons, List.foldl_append, ih]
    simp [Nat.ofDigits_cons, pow_succ]
    ring

/-- Big-endian digits evaluate back to the number. -/
theorem ofDigitsBE_natDigitsBE (n : ℕ) : ofDigitsBE (natDigitsBE n) = n := by
  unfold ofDigitsBE natDigitsBE
  rw [foldl_reverse_ofDigits]
  simp [Nat.ofDigits_digits]

/-- Every entry of the padded digit list is a decimal digit. -/
theorem padDigits_lt (n e : ℕ) : ∀ d ∈ padDigits e (natDigitsBE n), d < 10 := by
  intro d hd
  rcases List.mem_append.1 hd with h | h
  · have := List.eq_of_mem_replicate h
    omega
  · exact Nat.digits_lt_base (by norm_num) (List.mem_reverse.1 h)

/-- Value of the padded digit list. -/
theorem ofDigitsBE_padDigits (n e : ℕ) : ofDigitsBE (padDigits e (natDigitsBE n)) = n := by
  unfold padDigits
  rw [ofDigitsBE_replicate_zero, ofDigitsBE_natDigitsBE]

/-- Length of the padded digit list. -/
theorem padDigits_length (e : ℕ) (l : List ℕ) :
    (padDigits e l).length = max (e + 1) l.length := by
  simp [padDigits]
  omega

/-- Mapping to characters and back is the identity on digit lists. -/
theorem map_digitOfChar_charOfDigit (l : List ℕ) (hl : ∀ d ∈ l, d < 10) :
    (l.map charOfDigit).map digitOfChar = l := by
  rw [List.map_map]
  conv_rhs => rw [← List.map_id l]
  exact List.map_congr_left (fun d hd => (charOfDigit_facts (hl d hd)).1)

end Goodwise

namespace Goodwise

/-- Unsigned parse of a digit string with a point: digits before and after
the point are recovered. -/
theorem parse_split (a b : List ℕ) (h10 : ∀ d ∈ a ++ b, d < 10) (ha : a ≠ []) :
    parseUnsigned (a.map charOfDigit ++ '.' :: b.map charOfDigit)
      = some ⟨(ofDigitsBE (a ++ b) : ℤ), b.length⟩ := by
  have hA : ∀ c ∈ a.map charOfDigit, c.isDigit = true := by
    intro c hc
    obtain ⟨d, hd, rfl⟩ := List.mem_map.1 hc
    exact (charOfDigit_facts (h10 d (List.mem_append_left _ hd))).2.1
  have hB : ∀ c ∈ b.map charOfDigit, c.isDigit = true := by
    intro c hc
    obtain ⟨d, hd, rfl⟩ := List.mem_map.1 hc
    exact (charOfDigit_facts (h10 d (List.mem_append_right _ hd))).2.1
  obtain ⟨htw, hdw⟩ :=
    takeWhile_append_of Char.isDigit (a.map charOfDigit) (b.map charOfDigit) '.' hA (by decide)
  obtain ⟨htw2, hdw2⟩ := takeWhile_eq_self_of Char.isDigit (b.map charOfDigit) hB
  have hanil : a.map charOfDigit ≠ [] := by
    simpa using ha
  unfold parseUnsigned
  simp only [htw, hdw, htw2, hdw2, List.head?_cons, List.tail_cons]
  rw [if_neg (List.cons_ne_nil '.' (List.map charOfDigit b))]
  rw [if_pos trivial]
  rw [if_pos trivial]
  rw [if_neg (fun h => hanil h.1)]
  rw [← List.map_append, map_digitOfChar_charOfDigit _ h10, List.length_map]

/-- Signed parse of an unsigned digit string with a point. -/
theorem parseSigned_split (a b : List ℕ) (h10 : ∀ d ∈ a ++ b, d < 10) (ha : a ≠ []) :
    parseSigned (a.map charOfDigit ++ '.' :: b.map charOfDigit)
      = some ⟨(ofDigitsBE (a ++ b) : ℤ), b.length⟩ := by
  obtain ⟨d, a', rfl⟩ : ∃ d a', a = d :: a' := by
    cases a with
    | nil => exact absurd rfl ha
    | cons d a' => exact ⟨d, a', rfl⟩
  have hfacts := charOfDigit_facts (h10 d (by simp))
  have hshape : (d :: a').map charOfDigit ++ '.' :: b.map charOfDigit
      = charOfDigit d :: (a'.map charOfDigit ++ '.' :: b.map charOfDigit) := by simp
  rw [hshape, parseSigned, if_neg hfacts.2.2.2.1, if_neg hfacts.2.2.2.2.1, ← hshape]
  exact parse_split (d :: a') b h10 ha

/-- Structure of the unsigned rendering: digit lists around the point,
nonempty integral part, value and fractional length recovered. -/
theorem renderUnsigned_eq (n e : ℕ) :
    ∃ a b : List ℕ, (∀ d ∈ a ++ b, d < 10) ∧ a ≠ [] ∧ ofDigitsBE (a ++ b) = n ∧
      b.length = e ∧
      renderUnsigned n e = a.map charOfDigit ++ '.' :: b.map charOfDigit := by
  have hlen : e + 1 ≤ (padDigits e (natDigitsBE n)).length := by
    rw [padDigits_length]; omega
  refine ⟨(padDigits e (natDigitsBE n)).take ((padDigits e (natDigitsBE n)).length - e),
    (padDigits e (natDigitsBE n)).drop ((padDigits e (natDigitsBE n)).length - e),
    ?_, ?_, ?_, ?_, rfl⟩
  · rw [List.take_append_drop]
    exact padDigits_lt n e
  · have : ((padDigits e (natDigitsBE n)).take ((padDigits e (natDigitsBE n)).length - e)).length
        = (padDigits e (natDigitsBE n)).length - e := by
      rw [List.length_take]
      omega
    intro hnil
    rw [hnil] at this
    simp at this
    omega
  · rw [List.take_append_drop, ofDigitsBE_padDigits]
  · rw [List.length_drop]
    omega

/-- Parsing the unsigned rendering recovers mantissa and exponent. -/
theorem parseUnsigned_renderUnsigned (n e : ℕ) :
    parseUnsigned (renderUnsigned n e) = some ⟨(n : ℤ), e⟩ := by
  obtain ⟨a, b, h10, ha, hval, hblen, heq⟩ := renderUnsigned_eq n e
  rw [heq, parse_split a b h10 ha, hval, hblen]

/-- Signed parsing of the unsigned rendering recovers mantissa and
exponent. -/
theorem parseSigned_renderUnsigned (n e : ℕ) :
    parseSigned (renderUnsigned n e) = some ⟨(n : ℤ), e⟩ := by
  obtain ⟨a, b, h10, ha, hval, hblen, heq⟩ := renderUnsigned_eq n e
  rw [heq, parseSigned_split a b h10 ha, hval, hblen]

/-- Every character of the unsigned rendering is a point or a digit. -/
theorem mem_renderUnsigned (n e : ℕ) (c : Char) (hc : c ∈ renderUnsigned n e) :
    c = '.' ∨ ∃ d, d < 10 ∧ c = charOfDigit d := by
  obtain ⟨a, b, h10, _, _, _, heq⟩ := renderUnsigned_eq n e
  rw [heq] at hc
  rcases List.mem_append.1 hc with h | h
  · obtain ⟨d, hd, rfl⟩ := List.mem_map.1 h
    exact Or.inr ⟨d, h10 d (List.mem_append_left _ hd), rfl⟩
  · rcases List.mem_cons.1 h with rfl | h
    · exact Or.inl rfl
    · obtain ⟨d, hd, rfl⟩ := List.mem_map.1 h
      exact Or.inr ⟨d, h10 d (List.mem_append_right _ hd), rfl⟩

/-- The unsigned rendering is never empty. -/
theorem renderUnsigned_ne_nil (n e : ℕ) : renderUnsigned n e ≠ [] := by
  obtain ⟨a, b, _, _, _, _, heq⟩ := renderUnsigned_eq n e
  rw [heq]
  simp

/-- Loading immediately after saving returns the saved timestamp value (in
its one-fractional-digit normal form). -/
theorem load_after_save (t : Dec) :
    get_last_sync_time (some (update_last_sync_time t)) = some t.norm := by
  have hws : ∀ c ∈ (if t.norm.man < 0 then ['-'] else [])
      ++ renderUnsigned t.norm.man.natAbs t.norm.exp, c.isWhitespace = false := by
    intro c hc
    rcases List.mem_append.1 hc with h | h
    · split at h <;> simp at h
      subst h; decide
    · rcases mem_renderUnsigned _ _ _ h with rfl | ⟨d, hd, rfl⟩
      · decide
      · exact (charOfDigit_facts hd).2.2.1
  have hne : (if t.norm.man < 0 then ['-'] else [])
      ++ renderUnsigned t.norm.man.natAbs t.norm.exp ≠ [] := by
    intro hnil
    rcases List.append_eq_nil.1 hnil with ⟨_, h⟩
    exact renderUnsigned_ne_nil _ _ h
  show get_last_sync_time (some (renderDec t)) = some t.norm
  unfold get_last_sync_time renderDec
  simp only [String.data]
  rw [pyStrip_eq_self_of _ hws, if_neg hne]
  by_cases hm : t.norm.man < 0
  · rw [if_pos hm, List.singleton_append, parseSigned, if_pos rfl,
      parseUnsigned_renderUnsigned]
    have : (↑t.norm.man.natAbs : ℤ) = -t.norm.man := by omega
    simp [Dec.neg, this]
  · rw [if_neg hm, List.nil_append, parseSigned_renderUnsigned]
    have : (↑t.norm.man.natAbs : ℤ) = t.norm.man := by omega
    simp [this]

end Goodwise

namespace Goodwise

/-- Cross multiplication agrees with the numeric order. -/
theorem Dec.le_iff (a b : Dec) : Dec.Le a b ↔ a.toRat ≤ b.toRat := by
  unfold Dec.Le Dec.toRat
  rw [div_le_div_iff₀ (by positivity) (by positivity)]
  constructor <;> intro h <;> exact_mod_cast h

/-- Strict cross multiplication agrees with the strict numeric order. -/
theorem Dec.lt_iff (a b : Dec) : Dec.Lt a b ↔ a.toRat < b.toRat := by
  unfold Dec.Lt Dec.toRat
  rw [div_lt_div_iff₀ (by positivity) (by positivity)]
  constructor <;> intro h <;> exact_mod_cast h

/-- Normalization preserves the numeric value. -/
theorem Dec.toRat_norm (d : Dec) : d.norm.toRat = d.toRat := by
  unfold Dec.norm
  split
  · rename_i h
    unfold Dec.toRat
    rw [h]
    push_cast
    field_simp
  · rfl

/-- The fetched change set is sorted ascending by numeric commit time. -/
theorem fetch_sorted (db : List Record) (w : Option Dec) :
    (fetch_new_highlights db w).Pairwise (fun a b => a.time.toRat ≤ b.time.toRat) := by
  haveI : IsTotal Record timeLe := ⟨fun _ _ => Int.le_total _ _⟩
  haveI : IsTrans Record timeLe := ⟨fun _ _ _ hab hbc =>
    (Dec.le_iff _ _).2 (le_trans ((Dec.le_iff _ _).1 hab) ((Dec.le_iff _ _).1 hbc))⟩
  cases w with
  | none => exact (List.sorted_insertionSort timeLe db).imp (fun h => (Dec.le_iff _ _).1 h)
  | some t => exact (List.sorted_insertionSort timeLe _).imp (fun h => (Dec.le_iff _ _).1 h)

/-- With no watermark, fetch is a permutation of the whole store. -/
theorem fetch_none_perm (db : List Record) : (fetch_new_highlights db none).Perm db :=
  List.perm_insertionSort timeLe db

/-- With a watermark, fetch is a permutation of the rows numerically past
it. -/
theorem fetch_some_perm (db : List Record) (w : Dec) :
    (fetch_new_highlights db (some w)).Perm
      (db.filter (fun h => decide (w.toRat < h.time.toRat))) := by
  have h2 : db.filter (fun h => decide (Dec.Lt w h.time))
      = db.filter (fun h => decide (w.toRat < h.time.toRat)) :=
    List.filter_congr (fun x _ => decide_eq_decide.2 (Dec.lt_iff _ _))
  have h1 : (fetch_new_highlights db (some w)).Perm
      (db.filter (fun h => decide (Dec.Lt w h.time))) :=
    List.perm_insertionSort timeLe _
  rw [h2] at h1
  exact h1

/-- In a pairwise-increasing list every value is at most the last one. -/
theorem le_getLast_of_pairwise {α : Type} (f : α → ℚ) (l : List α)
    (hp : l.Pairwise (fun a b => f a ≤ f b)) (h : l ≠ []) :
    ∀ a ∈ l, f a ≤ f (l.getLast h) := by
  induction l with
  | nil => exact absurd rfl h
  | cons x xs ih =>
    intro a ha
    cases xs with
    | nil =>
      rw [List.mem_singleton] at ha
      subst ha
      rfl
    | cons y ys =>
      rw [List.getLast_cons (List.cons_ne_nil y ys)]
      rcases List.mem_cons.1 ha with rfl | ha'
      · exact (List.pairwise_cons.1 hp).1 _ (List.getLast_mem _)
      · exact ih (List.pairwise_cons.1 hp).2 (List.cons_ne_nil y ys) a ha'

/-- Run equation: missing or empty credential outside dry run. -/
theorem mainRun_config (env file : Option String) (db : List Record)
    (d : Except String Unit) (henv : pyTruthyStr env = none) :
    mainRun false env file db d = ⟨file, 0, 0, 0, 0, .configError⟩ := by
  unfold mainRun
  rw [if_pos ⟨rfl, henv⟩]

/-- Run equation: empty change set. -/
theorem mainRun_empty (dryRun : Bool) (env file : Option String) (db : List Record)
    (d : Except String Unit) (hcfg : ¬(dryRun = false ∧ pyTruthyStr env = none))
    (h : fetch_new_highlights db (get_last_sync_time file) = []) :
    mainRun dryRun env file db d = ⟨file, 0, 0, 1, 1, .nothingToDo⟩ := by
  unfold mainRun
  rw [if_neg hcfg, dif_pos h]

/-- Run equation: dry run with pending records. -/
theorem mainRun_dry (env file : Option String) (db : List Record)
    (d : Except String Unit)
    (h : fetch_new_highlights db (get_last_sync_time file) ≠ []) :
    mainRun true env file db d = ⟨file, 0, 0, 1, 1,
      .dryRunReport ((fetch_new_highlights db (get_last_sync_time file)).map build_readwise_payload)
        ((fetch_new_highlights db (get_last_sync_time file)).getLast h).time⟩ := by
  unfold mainRun
  rw [if_neg (fun hc => Bool.noConfusion hc.1), dif_neg h, if_pos rfl]

/-- Run equation: delivery succeeds. -/
theorem mainRun_ok (env file : Option String) (db : List Record)
    (henv : pyTruthyStr env ≠ none)
    (h : fetch_new_highlights db (get_last_sync_time file) ≠ []) :
    mainRun false env file db (Except.ok ()) =
      ⟨some (update_last_sync_time ((fetch_new_highlights db (get_last_sync_time file)).getLast h).time),
        1, 1, 1, 1,
        .committed ((fetch_new_highlights db (get_last_sync_time file)).map build_readwise_payload)
          ((fetch_new_highlights db (get_last_sync_time file)).getLast h).time⟩ := by
  unfold mainRun
  rw [if_neg (fun hc => henv hc.2), dif_neg h, if_neg (by simp)]

/-- Run equation: delivery fails. -/
theorem mainRun_err (env file : Option String) (db : List Record) (e : String)
    (henv : pyTruthyStr env ≠ none)
    (h : fetch_new_highlights db (get_last_sync_time file) ≠ []) :
    mainRun false env file db (Except.error e) = ⟨file, 0, 1, 1, 1, .deliveryFailed e⟩ := by
  unfold mainRun
  rw [if_neg (fun hc => henv hc.2), dif_neg h, if_neg (by simp)]

end Goodwise

namespace Goodwise

/-- Behaviour of Python string truthiness used by the payload builder. -/
theorem pyTruthyStr_spec (o : Option String) :
    (o = none → pyTruthyStr o = none) ∧ (o = some "" → pyTruthyStr o = none) ∧
      (∀ s, o = some s → s ≠ "" → pyTruthyStr o = some s) := by
  refine ⟨fun h => by rw [h]; rfl, fun h => by rw [h]; rfl, fun s h hs => ?_⟩
  rw [h]
  simp [pyTruthyStr, hs]

/-- C1: in a non-preview run with a present credential, a non-empty fetched
change set and successful delivery, the saved watermark file holds the
`committed_at` of the last fetched record, loading it back gives that
timestamp's value, that value is the maximum `committed_at` over the whole
change set, and a failed delivery on the same inputs performs no watermark
write (the save happens only after delivery success). -/
theorem c1_success_advances_watermark (env file : Option String) (db : List Record)
    (henv : pyTruthyStr env ≠ none)
    (h : fetch_new_highlights db (get_last_sync_time file) ≠ []) :
    (mainRun false env file db (Except.ok ())).finalFile
        = some (update_last_sync_time
            ((fetch_new_highlights db (get_last_sync_time file)).getLast h).time)
      ∧ get_last_sync_time (mainRun false env file db (Except.ok ())).finalFile
        = some ((fetch_new_highlights db (get_last_sync_time file)).getLast h).time.norm
      ∧ ((fetch_new_highlights db (get_last_sync_time file)).getLast h).time.norm.toRat
        = ((fetch_new_highlights db (get_last_sync_time file)).getLast h).time.toRat
      ∧ (∀ r ∈ fetch_new_highlights db (get_last_sync_time file),
          r.time.toRat ≤ ((fetch_new_highlights db (get_last_sync_time file)).getLast h).time.toRat)
      ∧ (∀ e, (mainRun false env file db (Except.error e)).fileWrites = 0) := by
  refine ⟨?_, ?_, Dec.toRat_norm _, ?_, fun e => ?_⟩
  · rw [mainRun_ok env file db henv h]
  · rw [mainRun_ok env file db henv h]
    exact load_after_save _
  · exact le_getLast_of_pairwise (fun r => r.time.toRat) _ (fetch_sorted db _) h
  · rw [mainRun_err env file db e henv h]

/-- Witness for C1 at a one-row store with `committed_at = 100` and no prior
watermark: the run writes `100.0` and loading it back yields the value
100. -/
theorem c1_witness :
    pyTruthyStr (some "token") ≠ none
      ∧ fetch_new_highlights [sampleRec] (get_last_sync_time none) ≠ []
      ∧ get_last_sync_time
          (mainRun false (some "token") none [sampleRec] (Except.ok ())).finalFile
        = some ⟨1000, 1⟩ :=
  ⟨by decide, by decide,
    (c1_success_advances_watermark (some "token") none [sampleRec] (by decide) (by decide)).2.1⟩

/-- C2: when the delivery call fails, the watermark file is unchanged, no
watermark write occurs, and the delivery error is the run's surfaced
outcome. -/
theorem c2_failure_leaves_watermark (env file : Option String) (db : List Record)
    (e : String) (henv : pyTruthyStr env ≠ none)
    (h : fetch_new_highlights db (get_last_sync_time file) ≠ []) :
    (mainRun false env file db (Except.error e)).finalFile = file
      ∧ (mainRun false env file db (Except.error e)).fileWrites = 0
      ∧ (mainRun false env file db (Except.error e)).outcome = .deliveryFailed e := by
  rw [mainRun_err env file db e henv h]
  exact ⟨rfl, rfl, rfl⟩

/-- Witness for C2 at a one-row store and a prior watermark of 50: the file
still reads `50.0` after the failed run. -/
theorem c2_witness :
    pyTruthyStr (some "token") ≠ none
      ∧ fetch_new_highlights [sampleRec] (get_last_sync_time (some "50.0")) ≠ []
      ∧ (mainRun false (some "token") (some "50.0") [sampleRec]
          (Except.error "boom")).finalFile = some "50.0" :=
  ⟨by decide, by decide,
    (c2_failure_leaves_watermark (some "token") (some "50.0") [sampleRec] "boom"
      (by decide) (by decide)).1⟩

/-- C3: with no watermark, fetch returns all known records; with a
watermark, exactly the records with strictly greater `committed_at`; both
results are ordered ascending by `committed_at`. -/
theorem c3_fetch_spec (db : List Record) (w : Dec) :
    ((fetch_new_highlights db none).Pairwise (fun a b => a.time.toRat ≤ b.time.toRat)
        ∧ (fetch_new_highlights db none).Perm db)
      ∧ (fetch_new_highlights db (some w)).Pairwise (fun a b => a.time.toRat ≤ b.time.toRat)
      ∧ (fetch_new_highlights db (some w)).Perm
          (db.filter (fun h => decide (w.toRat < h.time.toRat))) :=
  ⟨⟨fetch_sorted db none, fetch_none_perm db⟩, fetch_sorted db (some w), fetch_some_perm db w⟩

/-- Counterexample to C4 as stated: a record whose joined `title` is present
as the empty string loses the field in the payload instead of carrying it
through unchanged. -/
theorem c4_counterexample :
    sampleRecEmptyTitle.title = some ""
      ∧ (build_readwise_payload sampleRecEmptyTitle).title = none :=
  ⟨rfl, rfl⟩

/-- C4 (amended): each optional field (`source_url`, `title`, `author`,
`note`) is omitted from the payload when it is absent or the empty string in
the source record, and carried through unchanged when present and
non-empty. -/
theorem c4_optional_fields (h : Record) :
    ((h.url = none → (build_readwise_payload h).source_url = none)
        ∧ (h.url = some "" → (build_readwise_payload h).source_url = none)
        ∧ (∀ s, h.url = some s → s ≠ "" → (build_readwise_payload h).source_url = some s))
      ∧ ((h.title = none → (build_readwise_payload h).title = none)
        ∧ (h.title = some "" → (build_readwise_payload h).title = none)
        ∧ (∀ s, h.title = some s → s ≠ "" → (build_readwise_payload h).title = some s))
      ∧ ((h.author = none → (build_readwise_payload h).author = none)
        ∧ (h.author = some "" → (build_readwise_payload h).author = none)
        ∧ (∀ s, h.author = some s → s ≠ "" → (build_readwise_payload h).author = some s))
      ∧ ((h.note = none → (build_readwise_payload h).note = none)
        ∧ (h.note = some "" → (build_readwise_payload h).note = none)
        ∧ (∀ s, h.note = some s → s ≠ "" → (build_readwise_payload h).note = some s)) :=
  ⟨pyTruthyStr_spec h.url, pyTruthyStr_spec h.title, pyTruthyStr_spec h.author,
    pyTruthyStr_spec h.note⟩

/-- Witness for C4 (amended) on a record with a present url, a present note,
an absent title and an empty-string author. -/
theorem c4_witness :
    (build_readwise_payload sampleRecMixed).source_url = some "https://x"
      ∧ (build_readwise_payload sampleRecMixed).title = none
      ∧ (build_readwise_payload sampleRecMixed).author = none
      ∧ (build_readwise_payload sampleRecMixed).note = some "a note" :=
  ⟨(c4_optional_fields sampleRecMixed).1.2.2 "https://x" rfl (by decide),
    (c4_optional_fields sampleRecMixed).2.1.1 rfl,
    (c4_optional_fields sampleRecMixed).2.2.1.2.1 rfl,
    (c4_optional_fields sampleRecMixed).2.2.2.2.2 "a note" rfl (by decide)⟩

/-- Counterexample to C5 as stated: a preview run with zero pending records
reports "nothing to do" and no dry-run batch at all, so it does not report a
batch of size N = 0 or a would-be watermark. -/
theorem c5_counterexample :
    (mainRun true none none [] (Except.ok ())).outcome.isDryRunReport = false
      ∧ (mainRun true none none [] (Except.ok ())).outcome = RunOutcome.nothingToDo := by
  decide

/-- C5 (amended): every preview run performs zero network calls and zero
watermark writes and leaves the file unchanged; when at least one record is
pending it reports the would-be batch (of size N) and the would-be new
watermark. -/
theorem c5_preview_purity (env file : Option String) (db : List Record)
    (d : Except String Unit) :
    (mainRun true env file db d).networkCalls = 0
      ∧ (mainRun true env file db d).fileWrites = 0
      ∧ (mainRun true env file db d).finalFile = file
      ∧ ∀ (h : fetch_new_highlights db (get_last_sync_time file) ≠ []),
          (mainRun true env file db d).outcome
              = .dryRunReport
                  ((fetch_new_highlights db (get_last_sync_time file)).map build_readwise_payload)
                  ((fetch_new_highlights db (get_last_sync_time file)).getLast h).time
            ∧ ((fetch_new_highlights db (get_last_sync_time file)).map
                build_readwise_payload).length
              = (fetch_new_highlights db (get_last_sync_time file)).length := by
  by_cases h : fetch_new_highlights db (get_last_sync_time file) = []
  · rw [mainRun_empty true env file db d (fun hc => Bool.noConfusion hc.1) h]
    exact ⟨rfl, rfl, rfl, fun h' => absurd h h'⟩
  · rw [mainRun_dry env file db d h]
    exact ⟨rfl, rfl, rfl, fun _ => ⟨rfl, List.length_map _ _⟩⟩

/-- Witness for C5 (amended) at a one-row store: no effects, and the dry-run
report carries a batch of size one. -/
theorem c5_witness :
    (mainRun true none none [sampleRec] (Except.ok ())).networkCalls = 0
      ∧ (mainRun true none none [sampleRec] (Except.ok ())).fileWrites = 0
      ∧ ((fetch_new_highlights [sampleRec] (get_last_sync_time none)).map
          build_readwise_payload).length
        = (fetch_new_highlights [sampleRec] (get_last_sync_time none)).length :=
  ⟨(c5_preview_purity none none [sampleRec] (Except.ok ())).1,
    (c5_preview_purity none none [sampleRec] (Except.ok ())).2.1,
    ((c5_preview_purity none none [sampleRec] (Except.ok ())).2.2.2 (by decide)).2⟩

/-- C6: a run whose change fetch is empty makes no delivery call and leaves
the watermark file untouched; if the run got past the credential check its
outcome is "nothing to do". -/
theorem c6_empty_run_no_effects (dryRun : Bool) (env file : Option String)
    (db : List Record) (d : Except String Unit)
    (h : fetch_new_highlights db (get_last_sync_time file) = []) :
    (mainRun dryRun env file db d).networkCalls = 0
      ∧ (mainRun dryRun env file db d).fileWrites = 0
      ∧ (mainRun dryRun env file db d).finalFile = file
      ∧ (¬(dryRun = false ∧ pyTruthyStr env = none) →
          (mainRun dryRun env file db d).outcome = .nothingToDo) := by
  by_cases hc : dryRun = false ∧ pyTruthyStr env = none
  · obtain ⟨h1, h2⟩ := hc
    subst h1
    rw [mainRun_config env file db d h2]
    exact ⟨rfl, rfl, rfl, fun hcon => absurd ⟨rfl, h2⟩ hcon⟩
  · rw [mainRun_empty dryRun env file db d hc h]
    exact ⟨rfl, rfl, rfl, fun _ => rfl⟩

/-- Witness for C6: store content already covered by the watermark gives an
empty fetch and an untouched file. -/
theorem c6_witness :
    fetch_new_highlights [sampleRec] (get_last_sync_time (some "100.0")) = []
      ∧ (mainRun false (some "token") (some "100.0") [sampleRec]
          (Except.ok ())).finalFile = some "100.0"
      ∧ (mainRun false (some "token") (some "100.0") [sampleRec]
          (Except.ok ())).networkCalls = 0 :=
  ⟨by decide,
    (c6_empty_run_no_effects false (some "token") (some "100.0") [sampleRec]
      (Except.ok ()) (by decide)).2.2.1,
    (c6_empty_run_no_effects false (some "token") (some "100.0") [sampleRec]
      (Except.ok ()) (by decide)).1⟩

/-- C7: load returns absent for a missing watermark file and for content
whose stripped text fails to parse as a number; malformed state is treated
identically to no prior sync. -/
theorem c7_load_malformed (s : String)
    (hp : parseSigned (pyStrip s.data) = none) :
    get_last_sync_time none = none ∧ get_last_sync_time (some s) = none := by
  refine ⟨rfl, ?_⟩
  show (if pyStrip s.data = [] then none else parseSigned (pyStrip s.data)) = none
  split
  · rfl
  · exact hp

/-- Witness for C7 on unparseable content. -/
theorem c7_witness :
    parseSigned (pyStrip "oops".data) = none
      ∧ get_last_sync_time (some "oops") = none :=
  ⟨by decide, (c7_load_malformed "oops" (by decide)).2⟩

/-- C8: the payload contains the note field exactly when the record's note
is present and non-empty. -/
theorem c8_note_iff (h : Record) :
    (build_readwise_payload h).note ≠ none ↔ h.note ≠ none ∧ h.note ≠ some "" := by
  show pyTruthyStr h.note ≠ none ↔ _
  match hn : h.note with
  | none => simp [pyTruthyStr]
  | some s =>
    by_cases hs : s = ""
    · subst hs
      simp [pyTruthyStr]
    · simp [pyTruthyStr, hs]

/-- C9: a non-preview run with an absent credential terminates as a
configuration error with zero network calls, zero store queries, zero file
reads and zero writes; a preview run with an absent credential never ends in
a configuration error. -/
theorem c9_credential_check (file : Option String) (db : List Record)
    (d : Except String Unit) :
    mainRun false none file db d = ⟨file, 0, 0, 0, 0, .configError⟩
      ∧ ∀ (db' : List Record) (d' : Except String Unit),
          (mainRun true none file db' d').outcome ≠ .configError := by
  refine ⟨mainRun_config none file db d rfl, fun db' d' => ?_⟩
  by_cases h : fetch_new_highlights db' (get_last_sync_time file) = []
  · rw [mainRun_empty true none file db' d' (fun hc => Bool.noConfusion hc.1) h]
    simp
  · rw [mainRun_dry none file db' d' h]
    simp

/-- C10: saving any timestamp and loading it back returns the identical
numeric value (the decimal text written by save parses back exactly). -/
theorem c10_save_load_roundtrip (t : Dec) :
    get_last_sync_time (some (update_last_sync_time t)) = some t.norm
      ∧ t.norm.toRat = t.toRat :=
  ⟨load_after_save t, Dec.toRat_norm t⟩

end Goodwise
